import Mathlib

/-!
Verification of the sourcerer lead-generation pipeline (Go) against its
natural-language specification.  The Go code under `internal/model`,
`internal/enrich`, `internal/storage` and `cmd/sourcerer` is shallowly
embedded below: pure methods become Lean functions, the DuckDB upsert and
export statements become explicit transformations of an in-memory table,
and the XML token walk of the enricher becomes a fold over a list of
pre-parsed elements.
-/

set_option linter.unusedVariables false

/-! ## String helpers (models of the Go `strings` / DuckDB string functions) -/

/-- Model of a byte-wise "starts with" test on character lists. -/
def listStartsWith : List Char → List Char → Bool
  | [], _ => true
  | _ :: _, [] => false
  | a :: as, b :: bs => a == b && listStartsWith as bs

/-- Model of substring search: does `needle` occur contiguously in `hay`?
Mirrors Go `strings.Contains` and DuckDB `contains(hay, needle)`. -/
def listContainsSub : List Char → List Char → Bool
  | [], needle => needle.isEmpty
  | c :: t, needle => listStartsWith needle (c :: t) || listContainsSub t needle

/-- Go `strings.Contains(s, sub)` / DuckDB `contains(s, sub)`. -/
def strContains (s sub : String) : Bool :=
  listContainsSub s.data sub.data

/-- Go `strings.ToLower` (ASCII model, per-character lowering). -/
def goToLower (s : String) : String :=
  String.mk (s.data.map Char.toLower)

/-- Go `strings.ToUpper` / SQL `upper` (ASCII model, per-character raising). -/
def goUpper (s : String) : String :=
  String.mk (s.data.map Char.toUpper)

/-- Go `strings.EqualFold` (ASCII case-folding model). -/
def goEqualFold (a b : String) : Bool :=
  goToLower a == goToLower b

/-- Go `strings.Join(xs, ",")`. -/
def goJoin : List String → String
  | [] => ""
  | [x] => x
  | x :: xs => x ++ "," ++ goJoin xs

/-- Go `strings.ReplaceAll(s, " ", "")`. -/
def goRemoveSpaces (s : String) : String :=
  String.mk (s.data.filter (fun c => c != ' '))

/-! ## Dates (model of the parts of Go `time.Time` the code observes) -/

/-- The projection of a Go `time.Time` that the pipeline inspects:
`Year()`, `YearDay()` and `IsZero()`. -/
structure GoDate where
  year : Int
  yearDay : Int
  isZero : Bool
deriving DecidableEq

/-- The Go zero `time.Time`: January 1 of year 1. -/
def zeroGoDate : GoDate := { year := 1, yearDay := 1, isZero := true }

def isLeapYear (y : Nat) : Bool :=
  y % 4 == 0 && (y % 100 != 0 || y % 400 == 0)

def daysInMonth (y m : Nat) : Nat :=
  if m == 2 then (if isLeapYear y then 29 else 28)
  else if m == 4 || m == 6 || m == 9 || m == 11 then 30
  else 31

def yearDayOf (y m d : Nat) : Nat :=
  d + ((List.range m).filter (fun k => 1 ≤ k && k < m)).foldl
    (fun acc k => acc + daysInMonth y k) 0

def digitsToNat : List Char → Option Nat
  | [] => some 0
  | c :: t =>
    if c.isDigit then
      (digitsToNat t).map (fun r => (c.toNat - '0'.toNat) * 10 ^ t.length + r)
    else none

def splitOnDash (cs : List Char) : List (List Char) :=
  cs.foldr
    (fun c acc =>
      match acc with
      | [] => if c == '-' then [[], []] else [[c]]
      | g :: gs => if c == '-' then [] :: (g :: gs) else (c :: g) :: gs)
    [[]]

/-- Model of Go `time.Parse("2006-01-02", s)` restricted to the observed
projection: on a well-formed `YYYY-MM-DD` string it yields the year and
day-of-year, on a malformed string it yields the zero time (Go's `Parse`
returns the zero `time.Time` together with an error, and the enricher
discards the error). -/
def parseGoDate (s : String) : GoDate :=
  match splitOnDash s.data with
  | [ys, ms, ds] =>
    match digitsToNat ys, digitsToNat ms, digitsToNat ds with
    | some y, some m, some d =>
      if ys.length == 4 && ms.length == 2 && ds.length == 2 &&
          1 ≤ m && m ≤ 12 && 1 ≤ d && d ≤ daysInMonth y m then
        { year := (y : Int), yearDay := (yearDayOf y m d : Int),
          isZero := y == 1 && m == 1 && d == 1 }
      else zeroGoDate
    | _, _, _ => zeroGoDate
  | _ => zeroGoDate

/-- Model of Go `time.AddDate(k, 0, 0)` on the observed projection: shift
the year, keep the day-of-year. -/
def addYears (d : GoDate) (k : Int) : GoDate :=
  { d with year := d.year + k }

/-- Chronological comparison of two dates (SQL `registration_date <= cutoff`). -/
def dateLEb (a b : GoDate) : Bool :=
  decide (a.year < b.year) || (a.year == b.year && decide (a.yearDay ≤ b.yearDay))

/-! ## The Lead model (`internal/model/model.go`) -/

structure PostcodeRange where
  Min : Int
  Max : Int

structure Lead where
  ABN : String
  Name : String
  Category : String
  Sources : List String
  EntityType : String
  EntityStatus : String
  State : String
  Postcode : String
  RegistrationDate : GoDate
  IsGSTRegistered : Bool
  ACN : String
  GSTEffectiveFrom : GoDate
  IsCurrentEntity : Bool
  MainTradingName : String
  Phone : String
  Email : String
  BusinessURL : String
  FoundAtURL : String
deriving DecidableEq

/-- A Lead with every attribute at its Go zero value. -/
def leadBlank : Lead :=
  { ABN := "", Name := "", Category := "", Sources := [], EntityType := "",
    EntityStatus := "", State := "", Postcode := "",
    RegistrationDate := zeroGoDate, IsGSTRegistered := false, ACN := "",
    GSTEffectiveFrom := zeroGoDate, IsCurrentEntity := false,
    MainTradingName := "", Phone := "", Email := "", BusinessURL := "",
    FoundAtURL := "" }

/-- Transcription of `Lead.AgeYears` from `model.go`; `now` stands for `time.Now()`. -/
def Lead.AgeYears (l : Lead) (now : GoDate) : Int :=
  if l.RegistrationDate.isZero then 0
  else
    let years := now.year - l.RegistrationDate.year
    let years := if now.yearDay < l.RegistrationDate.yearDay then years - 1 else years
    if years < 0 then 0 else years

/-- Transcription of `Lead.IsVeteran` from `model.go`. -/
def Lead.IsVeteran (l : Lead) (now : GoDate) (minAge : Int) : Bool :=
  decide (l.AgeYears now ≥ minAge)

/-- Transcription of `Lead.IsPrivateEntity` from `model.go`. -/
def Lead.IsPrivateEntity (l : Lead) : Bool :=
  let lowerType := goToLower l.EntityType
  if strContains lowerType "public company" then false
  else if strContains lowerType "government" then false
  else if strContains lowerType "sole trader" || strContains lowerType "individual" then false
  else if strContains lowerType "other incorporated entity" then false
  else if strContains lowerType "trust" then false
  else true

/-- Transcription of `Lead.IsInvestable` from `model.go`: the state loop becomes `List.any`;
the `allowedPostcodes` parameter is accepted but never read, exactly as in
the source. -/
def Lead.IsInvestable (l : Lead) (allowedStates : List String)
    (allowedPostcodes : List PostcodeRange) : Bool :=
  if allowedStates.length > 0 then
    allowedStates.any (fun s => goEqualFold l.State s)
  else true

/-! ## The enricher (`internal/enrich/abr_client.go`, `ABRClient.Enrich`)

The HTTP fetch and the XML tokenizer are external to the repository; the
response body is abstracted into the list of recognized elements the token
walk can encounter, in stream order.  `DecodeElement` consumes an element's
whole subtree, so a `goodsAndServicesTax` element carries its own
`effectiveFrom`/`effectiveTo` children and they are not re-observed by the
outer loop — hence elements arrive pre-structured. -/

inductive XmlElem where
  | entityDescription (v : String)
  | entityStatusCode (v : String)
  | gst (effectiveFrom effectiveTo : String)
  | effectiveFrom (v : String)
  | stateCode (v : String)
  | postcode (v : String)
  | other (tag : String)
deriving DecidableEq

structure EnrichState where
  lead : Lead
  foundData : Bool
deriving DecidableEq

/-- One iteration of the greedy token switch in `ABRClient.Enrich`. -/
def processElem (st : EnrichState) (e : XmlElem) : EnrichState :=
  match e with
  | .entityDescription v =>
    { lead := { st.lead with EntityType := v }, foundData := true }
  | .entityStatusCode v =>
    { st with lead := { st.lead with EntityStatus := v } }
  | .gst effFrom effTo =>
    if effFrom != "" && effTo == "0001-01-01" then
      { st with lead := { st.lead with IsGSTRegistered := true } }
    else st
  | .effectiveFrom v =>
    if st.lead.RegistrationDate.isZero then
      if v != "" && v != "0001-01-01" then
        { st with lead := { st.lead with RegistrationDate := parseGoDate v } }
      else st
    else st
  | .stateCode v =>
    if st.lead.State == "" then { st with lead := { st.lead with State := v } }
    else st
  | .postcode v =>
    if st.lead.Postcode == "" then { st with lead := { st.lead with Postcode := v } }
    else st
  | .other _ => st

def enrichFold (l : Lead) (resp : List XmlElem) : EnrichState :=
  resp.foldl processElem { lead := l, foundData := false }

/-- Transcription of `ABRClient.Enrich`: walk the response, mutate the lead in place, and
fail with the "no business data" error when `foundData` was never set. -/
def Enrich (l : Lead) (resp : List XmlElem) : Except String Lead :=
  let st := enrichFold l resp
  if st.foundData then Except.ok st.lead
  else Except.error ("no business data found for ABN " ++ goRemoveSpaces l.ABN)

/-- The bounded diagnostic snippet logged alongside the "no business data"
error (`if len(snippet) > 500 { snippet = snippet[:500] }`). -/
def diagSnippet (body : String) : String :=
  if body.length > 500 then String.mk (body.data.take 500) else body

/-- Does the element set `foundData` (only `entitydescription` does)? -/
def isEntityDesc : XmlElem → Bool
  | .entityDescription _ => true
  | _ => false

/-- The condition under which a GST element switches the flag on. -/
def isActiveGST : XmlElem → Bool
  | .gst effFrom effTo => effFrom != "" && effTo == "0001-01-01"
  | _ => false

/-! ## The record store (`internal/storage/duckdb.go`)

The `leads` table is a list of rows; `abn` is the primary key.  The SQL
`INSERT ... ON CONFLICT (abn) DO UPDATE` statement of `SaveLead` and the
filtered, ordered `COPY` of `ExportCSV` are transcribed directly. -/

structure Row where
  abn : String
  name : String
  category : String
  sources : String
  entity_type : String
  entity_status : String
  state : String
  postcode : String
  registration_date : GoDate
  gst_registered : Bool
  found_at_url : String
  updated_at : Int
deriving DecidableEq

/-- The tuple bound to the `INSERT` placeholders in `SaveLead`. -/
def rowOfLead (l : Lead) (now : Int) : Row :=
  { abn := l.ABN, name := l.Name, category := l.Category,
    sources := goJoin l.Sources, entity_type := l.EntityType,
    entity_status := l.EntityStatus, state := l.State, postcode := l.Postcode,
    registration_date := l.RegistrationDate, gst_registered := l.IsGSTRegistered,
    found_at_url := l.FoundAtURL, updated_at := now }

/-- The `DO UPDATE SET sources = CASE WHEN CONTAINS(leads.sources,
EXCLUDED.sources) THEN leads.sources ELSE leads.sources || ',' ||
EXCLUDED.sources END` expression. -/
def mergeSources (old incoming : String) : String :=
  if strContains old incoming then old else old ++ "," ++ incoming

/-- Effect of the conflict branch on one stored row. -/
def updateRow (l : Lead) (now : Int) (r : Row) : Row :=
  if r.abn == l.ABN then
    { r with sources := mergeSources r.sources (goJoin l.Sources), updated_at := now }
  else r

/-- Transcription of `DuckDBRepo.SaveLead`: the existence probe, then the upsert; returns
`!exists` paired with the new table state. -/
def SaveLead (t : List Row) (l : Lead) (now : Int) : Bool × List Row :=
  let exist := t.any (fun r => r.abn == l.ABN)
  if exist then (false, t.map (updateRow l now))
  else (true, t ++ [rowOfLead l now])

/-- The `sources` column of the row keyed by `abn`, if present. -/
def storedSources (t : List Row) (abn : String) : Option String :=
  (t.find? (fun r => r.abn == abn)).map (fun r => r.sources)

/-- Is the jurisdiction filter active (`len(states) > 0 && states[0] != ""`)? -/
def statesActive : List String → Bool
  | [] => false
  | h :: _ => h != ""

/-- Is the source filter active (`len(sources) > 0 && sources[0] != ""`)? -/
def sourcesActive : List String → Bool
  | [] => false
  | h :: _ => h != ""

/-- The `WHERE` clause of `DuckDBRepo.ExportCSV` applied to one row. -/
def exportPasses (r : Row) (cutoff : GoDate) (states sources : List String) : Bool :=
  dateLEb r.registration_date cutoff &&
  r.gst_registered &&
  !(strContains (goToLower r.entity_type) "public company") &&
  !(strContains (goToLower r.entity_type) "government") &&
  (if statesActive states then states.contains r.state else true) &&
  (if sourcesActive sources then
      sources.any (fun s => strContains (goUpper r.sources) (goUpper s))
    else true)

/-- Ordering used by `ORDER BY registration_date ASC`. -/
def rowLE (a b : Row) : Prop :=
  a.registration_date.year < b.registration_date.year ∨
    (a.registration_date.year = b.registration_date.year ∧
      a.registration_date.yearDay ≤ b.registration_date.yearDay)

instance : DecidableRel rowLE := fun a b => by
  unfold rowLE; infer_instance

instance : IsTotal Row rowLE := ⟨by intro a b; unfold rowLE; omega⟩

instance : IsTrans Row rowLE := ⟨by intro a b c; unfold rowLE; omega⟩

/-- Transcription of `DuckDBRepo.ExportCSV`: derive the cutoff from `minAge` at export time
(`time.Now().AddDate(-minAge, 0, 0)`), filter, and order by registration
date ascending; the result is the row sequence written to the CSV body. -/
def ExportCSV (t : List Row) (now : GoDate) (minAge : Int)
    (states sources : List String) : List Row :=
  let cutoff := addYears now (-minAge)
  List.insertionSort rowLE (t.filter (fun r => exportPasses r cutoff states sources))

/-! ## The per-candidate consolidation step (`cmd/sourcerer/main.go`) -/

inductive Outcome where
  | skipped
  | errored
  | selected (l : Lead)
deriving DecidableEq

/-- The conjunction `isVet && isInv && isGst && isPrivate` guarding
`repo.SaveLead` in the main loop. -/
def selectedForSave (now : GoDate) (targetAge : Int) (allowedStates : List String)
    (allowedPostcodes : List PostcodeRange) (l : Lead) : Bool :=
  l.IsVeteran now targetAge && l.IsInvestable allowedStates allowedPostcodes &&
    l.IsGSTRegistered && l.IsPrivateEntity

/-- One iteration of the consolidation loop in `main`: skip unnamed leads,
substitute a cached record when the name is known, otherwise enrich (a
failure drops the candidate as an error), then apply the filter chain;
`selected` is the branch that calls `repo.SaveLead`. -/
def processCandidate (now : GoDate) (targetAge : Int) (allowedStates : List String)
    (allowedPostcodes : List PostcodeRange) (cached : Option Lead)
    (resp : List XmlElem) (lead : Lead) : Outcome :=
  if lead.Name = "" then Outcome.skipped
  else
    match cached with
    | some existing =>
      if selectedForSave now targetAge allowedStates allowedPostcodes existing then
        Outcome.selected existing
      else Outcome.skipped
    | none =>
      match Enrich lead resp with
      | Except.error _ => Outcome.errored
      | Except.ok l2 =>
        if selectedForSave now targetAge allowedStates allowedPostcodes l2 then
          Outcome.selected l2
        else Outcome.skipped

example : ({ leadBlank with EntityType := "Public Company" } : Lead).IsPrivateEntity = false := by decide
example : ({ leadBlank with EntityType := "Proprietary Limited" } : Lead).IsPrivateEntity = true := by decide
example : parseGoDate "2024-03-01" = { year := 2024, yearDay := 61, isZero := false } := by decide
example : parseGoDate "0001-01-01" = { year := 1, yearDay := 1, isZero := true } := by decide
example : parseGoDate "garbage" = zeroGoDate := by decide
example : mergeSources "ABR-Search" "ABR" = "ABR-Search" := by decide
example : mergeSources "ABR" "ABR-Search" = "ABR,ABR-Search" := by decide

/-! ## Helper lemmas -/

theorem listStartsWith_refl (l : List Char) : listStartsWith l l = true := by
  induction l with
  | nil => rfl
  | cons c t ih => simp [listStartsWith, ih]

theorem listContainsSub_self (l : List Char) : listContainsSub l l = true := by
  cases l with
  | nil => rfl
  | cons c t => simp [listContainsSub, listStartsWith_refl]

theorem listContainsSub_append (x y : List Char) :
    listContainsSub (x ++ y) y = true := by
  induction x with
  | nil => simp only [List.nil_append]; exact listContainsSub_self y
  | cons c t ih => simp [listContainsSub, ih]

theorem strData_append (a b : String) : (a ++ b).data = a.data ++ b.data := by
  cases a; cases b; rfl

theorem strContains_append_self (x y : String) :
    strContains (x ++ y) y = true := by
  simp only [strContains, strData_append]
  exact listContainsSub_append x.data y.data

theorem strContains_merge (a b : String) :
    strContains (mergeSources a b) b = true := by
  unfold mergeSources
  by_cases h : strContains a b = true
  · rw [if_pos h]; exact h
  · have hb : strContains a b = false := by
      cases hab : strContains a b with
      | false => rfl
      | true => exact absurd hab h
    rw [if_neg (by simp [hb])]
    have : a ++ "," ++ b = (a ++ ",") ++ b := by
      simp [String.append_assoc]
    rw [this]
    exact strContains_append_self (a ++ ",") b

theorem mergeSources_of_contains (a b : String) (h : strContains a b = true) :
    mergeSources a b = a := by
  simp [mergeSources, h]

theorem mergeSources_idem (a b : String) :
    mergeSources (mergeSources a b) b = mergeSources a b :=
  mergeSources_of_contains _ _ (strContains_merge a b)

theorem updateRow_abn (l : Lead) (now : Int) (r : Row) :
    (updateRow l now r).abn = r.abn := by
  unfold updateRow
  split <;> rfl

theorem any_map_updateRow (l : Lead) (now : Int) (t : List Row) :
    (t.map (updateRow l now)).any (fun r => r.abn == l.ABN) =
      t.any (fun r => r.abn == l.ABN) := by
  induction t with
  | nil => rfl
  | cons r rs ih => simp [List.any_cons, ih, updateRow_abn]

theorem processElem_foundData (st : EnrichState) (e : XmlElem) :
    (processElem st e).foundData = (st.foundData || isEntityDesc e) := by
  cases e with
  | entityDescription v => simp [processElem, isEntityDesc]
  | entityStatusCode v => simp [processElem, isEntityDesc]
  | gst f t =>
    simp only [processElem, isEntityDesc, Bool.or_false]
    split <;> rfl
  | effectiveFrom v =>
    simp only [processElem, isEntityDesc, Bool.or_false]
    split
    · split <;> rfl
    · rfl
  | stateCode v =>
    simp only [processElem, isEntityDesc, Bool.or_false]
    split <;> rfl
  | postcode v =>
    simp only [processElem, isEntityDesc, Bool.or_false]
    split <;> rfl
  | other tag => simp [processElem, isEntityDesc]

theorem foldl_foundData (resp : List XmlElem) (st : EnrichState) :
    (resp.foldl processElem st).foundData = (st.foundData || resp.any isEntityDesc) := by
  induction resp generalizing st with
  | nil => simp
  | cons e es ih =>
    simp only [List.foldl_cons, List.any_cons, ih, processElem_foundData]
    cases st.foundData <;> simp

theorem processElem_gstFlag (st : EnrichState) (e : XmlElem) :
    (processElem st e).lead.IsGSTRegistered =
      (st.lead.IsGSTRegistered || isActiveGST e) := by
  cases e with
  | entityDescription v => simp [processElem, isActiveGST]
  | entityStatusCode v => simp [processElem, isActiveGST]
  | gst f t =>
    simp only [processElem, isActiveGST]
    cases hc : (f != "" && t == "0001-01-01") <;> simp [hc]
  | effectiveFrom v =>
    simp only [processElem, isActiveGST, Bool.or_false]
    split
    · split <;> rfl
    · rfl
  | stateCode v =>
    simp only [processElem, isActiveGST, Bool.or_false]
    split <;> rfl
  | postcode v =>
    simp only [processElem, isActiveGST, Bool.or_false]
    split <;> rfl
  | other tag => simp [processElem, isActiveGST]

theorem foldl_gstFlag (resp : List XmlElem) (st : EnrichState) :
    (resp.foldl processElem st).lead.IsGSTRegistered =
      (st.lead.IsGSTRegistered || resp.any isActiveGST) := by
  induction resp generalizing st with
  | nil => simp
  | cons e es ih =>
    simp only [List.foldl_cons, List.any_cons, ih, processElem_gstFlag]
    cases st.lead.IsGSTRegistered <;> simp

/-! ## Claim theorems -/

/-- C3: for every Lead with a known (non-zero) registration date, the
computed age equals the current year minus the registration year,
decremented by one when the current day-of-year precedes the
registration's, clamped to zero; hence a registration exactly one year ago
gives age 1 once the day-of-year has been reached and 0 before it, a
future registration gives 0, and the age is never negative. -/
theorem ageYears_clamped (l : Lead) (now : GoDate)
    (h : l.RegistrationDate.isZero = false) :
    l.AgeYears now =
        max 0 (now.year - l.RegistrationDate.year -
          (if now.yearDay < l.RegistrationDate.yearDay then 1 else 0)) ∧
      (l.RegistrationDate.year = now.year - 1 →
        (l.RegistrationDate.yearDay ≤ now.yearDay → l.AgeYears now = 1) ∧
        (now.yearDay < l.RegistrationDate.yearDay → l.AgeYears now = 0)) ∧
      (now.year < l.RegistrationDate.year → l.AgeYears now = 0) ∧
      0 ≤ l.AgeYears now := by
  simp only [Lead.AgeYears, h, Bool.false_eq_true, if_false, max_def]
  split_ifs <;> omega

/-- Witness for `ageYears_clamped` at a concrete registration one year
before a concrete "now". -/
theorem ageYears_clamped_witness :
    ({ leadBlank with
        RegistrationDate := { year := 2024, yearDay := 50, isZero := false } } :
      Lead).RegistrationDate.isZero = false ∧
    0 ≤ ({ leadBlank with
        RegistrationDate := { year := 2024, yearDay := 50, isZero := false } } :
      Lead).AgeYears { year := 2025, yearDay := 100, isZero := false } :=
  ⟨rfl,
    (ageYears_clamped _ { year := 2025, yearDay := 100, isZero := false } rfl).2.2.2⟩

/-- C6: `IsPrivateEntity` is exactly the denylist test — true iff the
lower-cased entity type contains none of the six excluded substrings — so
"Public Company" is excluded and "Proprietary Limited" is included. -/
theorem isPrivateEntity_denylist :
    (∀ l : Lead, l.IsPrivateEntity = true ↔
      (strContains (goToLower l.EntityType) "public company" = false ∧
       strContains (goToLower l.EntityType) "government" = false ∧
       strContains (goToLower l.EntityType) "sole trader" = false ∧
       strContains (goToLower l.EntityType) "individual" = false ∧
       strContains (goToLower l.EntityType) "other incorporated entity" = false ∧
       strContains (goToLower l.EntityType) "trust" = false)) ∧
    ({ leadBlank with EntityType := "Public Company" } : Lead).IsPrivateEntity = false ∧
    ({ leadBlank with EntityType := "Proprietary Limited" } : Lead).IsPrivateEntity = true := by
  refine ⟨?_, by decide, by decide⟩
  intro l
  simp only [Lead.IsPrivateEntity]
  cases h1 : strContains (goToLower l.EntityType) "public company" <;>
  cases h2 : strContains (goToLower l.EntityType) "government" <;>
  cases h3 : strContains (goToLower l.EntityType) "sole trader" <;>
  cases h4 : strContains (goToLower l.EntityType) "individual" <;>
  cases h5 : strContains (goToLower l.EntityType) "other incorporated entity" <;>
  cases h6 : strContains (goToLower l.EntityType) "trust" <;>
  simp_all

/-- C9: with a non-empty jurisdiction allow-list, `IsInvestable` passes iff
the lead's state case-insensitively matches one entry; and the result never
depends on the configured postcode ranges. -/
theorem isInvestable_jurisdiction (l : Lead) (states : List String)
    (pcs pcs2 : List PostcodeRange) :
    (states ≠ [] →
      (l.IsInvestable states pcs = true ↔
        ∃ s, s ∈ states ∧ goEqualFold l.State s = true)) ∧
    l.IsInvestable states pcs = l.IsInvestable states pcs2 := by
  constructor
  · intro h
    have hl : 0 < states.length := List.length_pos.mpr h
    simp [Lead.IsInvestable, hl, List.any_eq_true]
  · rfl

/-- Witness for `isInvestable_jurisdiction` at a lower-case state against
an upper-case allow-list entry. -/
theorem isInvestable_jurisdiction_witness :
    ({ leadBlank with State := "vic" } : Lead).IsInvestable ["VIC"]
        [{ Min := 3000, Max := 3999 }] = true ∧
    ({ leadBlank with State := "vic" } : Lead).IsInvestable ["VIC"] [] =
      ({ leadBlank with State := "vic" } : Lead).IsInvestable ["VIC"]
        [{ Min := 3000, Max := 3999 }] := by
  have h := isInvestable_jurisdiction { leadBlank with State := "vic" } ["VIC"]
    [{ Min := 3000, Max := 3999 }] []
  exact ⟨(h.1 (by decide)).mpr ⟨"VIC", by decide, by decide⟩, h.2.symm⟩

/-- C10: a Lead whose registration date is the Go zero value has computed
age 0, fails the age predicate once the configured minimum age is at least
1, fails the `SaveLead` guard of the main loop, and the consolidation step
never reaches the persistence branch for it. -/
theorem zero_registration_not_selected (l : Lead) (now : GoDate) (minAge : Int)
    (states : List String) (pcs : List PostcodeRange)
    (h : l.RegistrationDate.isZero = true) (hmin : 1 ≤ minAge) :
    l.AgeYears now = 0 ∧
    l.IsVeteran now minAge = false ∧
    selectedForSave now minAge states pcs l = false ∧
    (∀ (resp : List XmlElem) (lead0 : Lead),
      processCandidate now minAge states pcs (some l) resp lead0 = Outcome.skipped) := by
  have hage : l.AgeYears now = 0 := by simp [Lead.AgeYears, h]
  have hvet : l.IsVeteran now minAge = false := by
    simp only [Lead.IsVeteran, hage, decide_eq_false_iff_not]
    omega
  have hsel : selectedForSave now minAge states pcs l = false := by
    simp [selectedForSave, hvet]
  refine ⟨hage, hvet, hsel, ?_⟩
  intro resp lead0
  unfold processCandidate
  split
  · rfl
  · simp [hsel]

/-- Witness for `zero_registration_not_selected` at a concrete zero-dated
lead and minimum age 15. -/
theorem zero_registration_not_selected_witness :
    ({ leadBlank with Name := "Acme" } : Lead).RegistrationDate.isZero = true ∧
    (1 : Int) ≤ 15 ∧
    ({ leadBlank with Name := "Acme" } : Lead).AgeYears
      { year := 2025, yearDay := 100, isZero := false } = 0 :=
  ⟨rfl, by decide,
    (zero_registration_not_selected { leadBlank with Name := "Acme" }
      { year := 2025, yearDay := 100, isZero := false } 15 [] [] rfl
      (by decide)).1⟩

/-- The deciding equality instance for enrichment outcomes. -/
instance : DecidableEq (Except String Lead) := fun a b =>
  match a, b with
  | Except.ok x, Except.ok y =>
    if h : x = y then isTrue (by rw [h]) else isFalse (by intro hc; cases hc; exact h rfl)
  | Except.error x, Except.error y =>
    if h : x = y then isTrue (by rw [h]) else isFalse (by intro hc; cases hc; exact h rfl)
  | Except.ok _, Except.error _ => isFalse (by intro hc; cases hc)
  | Except.error _, Except.ok _ => isFalse (by intro hc; cases hc)

/-- A lead carrying only an identifier, as handed to the enricher. -/
def leadWithABN : Lead := { leadBlank with ABN := "123" }

/-- The same lead after a walk that saw only an entity description. -/
def leadWithABNDescribed : Lead :=
  { leadWithABN with EntityType := "Australian Private Company" }

/-- A response whose GST sub-record has an effective-from date but an empty
end-date, exactly the "present AND no end-date" shape of the claim. -/
def respGSTNoEnd : List XmlElem :=
  [XmlElem.entityDescription "Australian Private Company",
   XmlElem.gst "2000-07-01" ""]

/-- C4 counterexample: the registry response carries a GST sub-record with
an effective-from date and no end-date (empty string), so the claim's
condition "present AND (no end-date OR null-date sentinel)" holds, yet the
enrichment walk leaves the tax-registration flag false — the code demands
the end-date to be exactly the sentinel "0001-01-01". -/
theorem gst_flag_no_end_date_counterexample :
    Enrich leadWithABN respGSTNoEnd = Except.ok leadWithABNDescribed ∧
    leadWithABNDescribed.IsGSTRegistered = false ∧
    (respGSTNoEnd.any (fun e =>
        match e with
        | XmlElem.gst _ _ => true
        | _ => false) = true) := by
  refine ⟨by decide, by decide, by decide⟩

/-- C4 amended: the enrichment walk sets the tax-registration flag to true
exactly when it was already true or some GST sub-record in the response has
a non-empty effective-from date AND an end-date equal to the null-date
sentinel "0001-01-01"; a sub-record without an end-date does not set it. -/
theorem gst_flag_amended (l : Lead) (resp : List XmlElem) :
    (enrichFold l resp).lead.IsGSTRegistered =
      (l.IsGSTRegistered || resp.any isActiveGST) := by
  unfold enrichFold
  exact foldl_gstFlag resp { lead := l, foundData := false }

/-- C5 counterexample: a response holding an expected registry field (the
entity-status code) but no entity description still makes `Enrich` fail
with the "no business data" error — `foundData` is set only by the
entity-description tag, refuting the claim's "if any expected field is
present it does not fail". -/
theorem no_business_data_counterexample :
    Enrich leadWithABN [XmlElem.entityStatusCode "Active"] =
      Except.error "no business data found for ABN 123" ∧
    ([XmlElem.entityStatusCode "Active"].any (fun e =>
        match e with
        | XmlElem.entityStatusCode _ => true
        | _ => false) = true) := by
  constructor
  · decide
  · decide

/-- C5 amended: `Enrich` fails with the "no business data" error (whose
message carries the cleaned identifier) if and only if the response
contains no entity-description element; the diagnostic snippet of the raw
body — emitted to the log next to that error — is bounded at 500
characters. -/
theorem no_business_data_amended (l : Lead) (resp : List XmlElem) (body : String) :
    (Enrich l resp =
        Except.error ("no business data found for ABN " ++ goRemoveSpaces l.ABN) ↔
      resp.any isEntityDesc = false) ∧
    (diagSnippet body).length ≤ 500 := by
  refine ⟨?_, ?_⟩
  · have hf : (enrichFold l resp).foundData = resp.any isEntityDesc := by
      unfold enrichFold
      rw [foldl_foundData]
      simp
    unfold Enrich
    simp only [hf]
    cases hA : resp.any isEntityDesc with
    | true => simp [hA]
    | false => simp [hA]
  · unfold diagSnippet
    split
    · show (String.mk (body.data.take 500)).length ≤ 500
      have : (String.mk (body.data.take 500)).length = (body.data.take 500).length := rfl
      rw [this, List.length_take]
      omega
    · rename_i hng
      show body.length ≤ 500
      omega

/-- A name-only candidate as produced by a scraping source: a non-empty
name and an empty canonical identifier. -/
def leadNameOnly : Lead := { leadBlank with Name := "Acme Pty Ltd" }

/-- C2 counterexample: on a Lead with an empty canonical identifier the
enricher performs no name-based resolution at all — it issues the
identifier-based lookup with the empty identifier and, when that yields no
recognized data, fails with the "no business data" error, not with any "no
identifier found" condition. -/
theorem enrich_empty_abn_counterexample :
    Enrich leadNameOnly [] = Except.error "no business data found for ABN " ∧
    strContains "no business data found for ABN " "no identifier" = false := by
  refine ⟨by decide, by decide⟩

/-- C2 amended: `Enrich` never resolves an empty identifier by name; it
runs the identifier-based lookup directly, and when the response carries no
entity description it fails with the "no business data" error (over the
empty cleaned identifier), after which the consolidation loop drops the
candidate for this run as an error — it is not persisted. -/
theorem enrich_empty_abn_amended (now : GoDate) (minAge : Int)
    (states : List String) (pcs : List PostcodeRange) (l : Lead)
    (resp : List XmlElem) (hname : ¬l.Name = "") (habn : l.ABN = "")
    (hdesc : resp.any isEntityDesc = false) :
    Enrich l resp = Except.error "no business data found for ABN " ∧
    processCandidate now minAge states pcs none resp l = Outcome.errored := by
  have herr : Enrich l resp = Except.error "no business data found for ABN " := by
    have hf : (enrichFold l resp).foundData = false := by
      unfold enrichFold
      rw [foldl_foundData]
      simp [hdesc]
    unfold Enrich
    simp only [hf, Bool.false_eq_true, if_false, habn]
    rfl
  refine ⟨herr, ?_⟩
  unfold processCandidate
  rw [if_neg hname]
  simp [herr]

/-- Witness for `enrich_empty_abn_amended` on the name-only candidate with
an empty response. -/
theorem enrich_empty_abn_amended_witness :
    ¬leadNameOnly.Name = "" ∧ leadNameOnly.ABN = "" ∧
    processCandidate { year := 2025, yearDay := 100, isZero := false } 15 [] []
      none [] leadNameOnly = Outcome.errored :=
  ⟨by decide, rfl,
    (enrich_empty_abn_amended { year := 2025, yearDay := 100, isZero := false }
      15 [] [] leadNameOnly [] (by decide) rfl rfl).2⟩

/-! ## Storage lemmas -/

theorem strContains_refl (s : String) : strContains s s = true :=
  listContainsSub_self s.data

theorem sources_double_update (l : Lead) (n n2 : Int) (r : Row) :
    (updateRow l n2 (updateRow l n r)).sources = (updateRow l n r).sources := by
  unfold updateRow
  by_cases hc : (r.abn == l.ABN) = true
  · simp [hc, mergeSources_idem]
  · simp [hc]

theorem sources_update_noop (l : Lead) (n2 : Int) (r : Row)
    (h : (r.abn == l.ABN) = false ∨ r.sources = goJoin l.Sources) :
    (updateRow l n2 r).sources = r.sources := by
  unfold updateRow
  rcases h with h | h
  · simp [h]
  · by_cases hc : (r.abn == l.ABN) = true
    · simp [hc, h, mergeSources_of_contains _ _ (strContains_refl _)]
    · simp [hc]

theorem find?_map_updateRow (l : Lead) (n : Int) (t : List Row) :
    (t.map (updateRow l n)).find? (fun r => r.abn == l.ABN) =
      ((t.find? (fun r => r.abn == l.ABN)).map (updateRow l n)) := by
  induction t with
  | nil => rfl
  | cons r rs ih =>
    simp only [List.map_cons, List.find?_cons, updateRow_abn]
    cases hc : (r.abn == l.ABN) with
    | true => simp [hc]
    | false => simp [hc, ih]

theorem find?_append_of_none {p : Row → Bool} (t1 t2 : List Row)
    (h : t1.find? p = none) : (t1 ++ t2).find? p = t2.find? p := by
  induction t1 with
  | nil => rfl
  | cons r rs ih =>
    rw [List.find?_cons] at h
    cases hc : p r with
    | true => rw [hc] at h; exact absurd h (by simp)
    | false =>
      rw [hc] at h
      rw [List.cons_append, List.find?_cons, hc]
      exact ih h

/-- Attribute preservation relating an updated row to the original: all
columns other than `sources` and `updated_at` agree, and a row with a
different key is completely untouched. -/
def framePreserved (l : Lead) (r2 r : Row) : Prop :=
  r2.abn = r.abn ∧ r2.name = r.name ∧ r2.category = r.category ∧
  r2.entity_type = r.entity_type ∧ r2.entity_status = r.entity_status ∧
  r2.state = r.state ∧ r2.postcode = r.postcode ∧
  r2.registration_date = r.registration_date ∧
  r2.gst_registered = r.gst_registered ∧ r2.found_at_url = r.found_at_url ∧
  (r.abn ≠ l.ABN → r2 = r)

theorem updateRow_framePreserved (l : Lead) (n : Int) (r : Row) :
    framePreserved l (updateRow l n r) r := by
  unfold updateRow framePreserved
  by_cases hc : (r.abn == l.ABN) = true
  · rw [if_pos hc]
    exact ⟨rfl, rfl, rfl, rfl, rfl, rfl, rfl, rfl, rfl, rfl,
      fun hne => absurd (beq_iff_eq.mp hc) hne⟩
  · rw [if_neg hc]
    exact ⟨rfl, rfl, rfl, rfl, rfl, rfl, rfl, rfl, rfl, rfl, fun _ => rfl⟩

theorem map_updateRow_frame (l : Lead) (n : Int) (t : List Row) :
    List.Forall₂ (framePreserved l) (t.map (updateRow l n)) t := by
  induction t with
  | nil => exact List.Forall₂.nil
  | cons r rs ih => exact List.Forall₂.cons (updateRow_framePreserved l n r) ih

/-- C7: when `SaveLead` is applied to a Lead whose canonical identifier
already exists in the store, the update path leaves every stored attribute
other than `sources` and `updated_at` unchanged on every row, and rows
keyed differently are untouched entirely (first enrichment wins). -/
theorem saveLead_update_frame (t : List Row) (l : Lead) (now : Int)
    (h : t.any (fun r => r.abn == l.ABN) = true) :
    List.Forall₂ (framePreserved l) (SaveLead t l now).2 t := by
  have e : (SaveLead t l now).2 = t.map (updateRow l now) := by
    simp [SaveLead, h]
  rw [e]
  exact map_updateRow_frame l now t

/-- Witness for `saveLead_update_frame` on a one-row table hit by a revisit
of the same identifier. -/
theorem saveLead_update_frame_witness :
    ([rowOfLead leadWithABN 0].any (fun r => r.abn == leadWithABN.ABN) = true) ∧
    List.Forall₂ (framePreserved leadWithABN)
      (SaveLead [rowOfLead leadWithABN 0] leadWithABN 1).2
      [rowOfLead leadWithABN 0] :=
  ⟨by decide, saveLead_update_frame [rowOfLead leadWithABN 0] leadWithABN 1 (by decide)⟩

/-- The same entity reported by the ABR keyword search. -/
def leadFromABRSearch : Lead :=
  { leadBlank with ABN := "1", Name := "Acme", Sources := ["ABR-Search"] }

/-- The same entity reported by a hypothetical source named "ABR". -/
def leadFromABR : Lead :=
  { leadBlank with ABN := "1", Name := "Acme", Sources := ["ABR"] }

/-- C1 counterexample: presenting the source identifiers "ABR-Search" and
"ABR" for the same canonical identifier in the two possible orders yields
two different stored `sources` values — in one order "ABR" is swallowed
because it is a substring of the already-stored "ABR-Search" — so the
stored value is not the order-independent, duplicate-free set-union the
claim requires. -/
theorem saveLead_sources_order_counterexample :
    storedSources (SaveLead (SaveLead [] leadFromABRSearch 0).2 leadFromABR 1).2 "1" =
      some "ABR-Search" ∧
    storedSources (SaveLead (SaveLead [] leadFromABR 0).2 leadFromABRSearch 1).2 "1" =
      some "ABR,ABR-Search" ∧
    ("ABR-Search" : String) ≠ "ABR,ABR-Search" := by
  refine ⟨by decide, by decide, by decide⟩

/-- C1 amended: the conflict path merges `sources` by substring-guarded
concatenation in arrival order, not by set-union: re-upserting the same
Lead is a no-op on every stored `sources` value (idempotent for exact
repeats), and after an upsert the stored value for that identifier contains
the presented serialized source list as a substring — but a presented
source already occurring as a substring of the stored value (even as part
of a longer source name) is dropped, so the merge is order-dependent. -/
theorem saveLead_sources_merge_amended (t : List Row) (l : Lead) (n n2 : Int) :
    ((SaveLead (SaveLead t l n).2 l n2).2.map (fun r => r.sources) =
      (SaveLead t l n).2.map (fun r => r.sources)) ∧
    (∀ s, storedSources (SaveLead t l n).2 l.ABN = some s →
      strContains s (goJoin l.Sources) = true) := by
  constructor
  · by_cases h : (t.any (fun r => r.abn == l.ABN)) = true
    · have e1 : (SaveLead t l n).2 = t.map (updateRow l n) := by
        simp [SaveLead, h]
      have h2 : ((t.map (updateRow l n)).any (fun r => r.abn == l.ABN)) = true := by
        rw [any_map_updateRow]; exact h
      have e2 : (SaveLead (t.map (updateRow l n)) l n2).2 =
          (t.map (updateRow l n)).map (updateRow l n2) := by
        simp [SaveLead, h2]
      rw [e1, e2, List.map_map, List.map_map, List.map_map]
      apply List.map_congr_left
      intro r hr
      exact sources_double_update l n n2 r
    · have hfalse : (t.any (fun r => r.abn == l.ABN)) = false := by
        cases hv : (t.any (fun r => r.abn == l.ABN)) with
        | true => exact absurd hv h
        | false => rfl
      have e1 : (SaveLead t l n).2 = t ++ [rowOfLead l n] := by
        simp [SaveLead, hfalse]
      have h2 : ((t ++ [rowOfLead l n]).any (fun r => r.abn == l.ABN)) = true := by
        have hx : ((rowOfLead l n).abn == l.ABN) = true := by
          simp [rowOfLead]
        simp [List.any_append, hx]
      have e2 : (SaveLead (t ++ [rowOfLead l n]) l n2).2 =
          (t ++ [rowOfLead l n]).map (updateRow l n2) := by
        simp [SaveLead, h2]
      rw [e1, e2, List.map_map]
      apply List.map_congr_left
      intro r hr
      rcases List.mem_append.mp hr with hmem | hmem
      · refine sources_update_noop l n2 r (Or.inl ?_)
        have := List.any_eq_false.mp hfalse r hmem
        cases hv : (r.abn == l.ABN) with
        | true => exact absurd hv this
        | false => rfl
      · rw [List.mem_singleton.mp hmem]
        exact sources_update_noop l n2 (rowOfLead l n) (Or.inr rfl)
  · intro s hs
    by_cases h : (t.any (fun r => r.abn == l.ABN)) = true
    · have e1 : (SaveLead t l n).2 = t.map (updateRow l n) := by
        simp [SaveLead, h]
      rw [e1] at hs
      unfold storedSources at hs
      rw [find?_map_updateRow] at hs
      cases hv : t.find? (fun r => r.abn == l.ABN) with
      | none =>
        rw [hv] at hs
        simp at hs
      | some r0 =>
        rw [hv] at hs
        simp only [Option.map_some'] at hs
        have hp0 : (r0.abn == l.ABN) = true := by
          simpa using List.find?_some hv
        have hu : (updateRow l n r0).sources =
            mergeSources r0.sources (goJoin l.Sources) := by
          unfold updateRow
          rw [if_pos hp0]
        rw [hu] at hs
        rw [← Option.some.inj hs]
        exact strContains_merge _ _
    · have hfalse : (t.any (fun r => r.abn == l.ABN)) = false := by
        cases hv : (t.any (fun r => r.abn == l.ABN)) with
        | true => exact absurd hv h
        | false => rfl
      have e1 : (SaveLead t l n).2 = t ++ [rowOfLead l n] := by
        simp [SaveLead, hfalse]
      rw [e1] at hs
      unfold storedSources at hs
      have hnone : t.find? (fun r => r.abn == l.ABN) = none := by
        rw [List.find?_eq_none]
        intro r hr
        simpa using List.any_eq_false.mp hfalse r hr
      rw [find?_append_of_none _ _ hnone] at hs
      have hfind : ([rowOfLead l n].find? (fun r => r.abn == l.ABN)) =
          some (rowOfLead l n) := by
        simp [List.find?, rowOfLead]
      rw [hfind] at hs
      simp only [Option.map_some'] at hs
      rw [← Option.some.inj hs]
      show strContains (goJoin l.Sources) (goJoin l.Sources) = true
      exact strContains_refl _

/-- Witness for `saveLead_sources_merge_amended`: after upserting the
ABR-Search observation into an empty store the stored value contains the
presented source string. -/
theorem saveLead_sources_merge_amended_witness :
    storedSources (SaveLead [] leadFromABRSearch 0).2 leadFromABRSearch.ABN =
      some "ABR-Search" ∧
    strContains "ABR-Search" (goJoin leadFromABRSearch.Sources) = true :=
  ⟨by decide,
    (saveLead_sources_merge_amended [] leadFromABRSearch 0 1).2 "ABR-Search" (by decide)⟩

/-- C8: a row appears in the `ExportCSV` result iff it is stored and is no
younger than the cutoff re-derived from `minAge` at export time, is
tax-registered, has an entity type containing neither "public company" nor
"government" (lower-cased), matches the jurisdiction allow-list when one is
configured, and — when a source filter is configured — its serialized
`sources` value case-insensitively contains one of the requested source
substrings; and the surviving rows are ordered by registration date
ascending. -/
theorem exportCSV_filter_sorted (t : List Row) (now : GoDate) (minAge : Int)
    (states sources : List String) :
    (∀ r : Row, r ∈ ExportCSV t now minAge states sources ↔
      (r ∈ t ∧
        dateLEb r.registration_date (addYears now (-minAge)) = true ∧
        r.gst_registered = true ∧
        strContains (goToLower r.entity_type) "public company" = false ∧
        strContains (goToLower r.entity_type) "government" = false ∧
        (if statesActive states then states.contains r.state else true) = true ∧
        (if sourcesActive sources then
            sources.any (fun s => strContains (goUpper r.sources) (goUpper s))
          else true) = true)) ∧
    List.Sorted rowLE (ExportCSV t now minAge states sources) := by
  constructor
  · intro r
    unfold ExportCSV
    rw [List.Perm.mem_iff (List.perm_insertionSort rowLE _)]
    rw [List.mem_filter]
    unfold exportPasses
    simp only [Bool.and_eq_true, Bool.not_eq_true']
    tauto
  · exact List.sorted_insertionSort rowLE _

/-- Witness row for the export characterization. -/
def rowVeteran : Row :=
  { abn := "1", name := "Acme", category := "Manufacturing",
    sources := "AMTIL", entity_type := "Australian Private Company",
    entity_status := "Active", state := "VIC", postcode := "3000",
    registration_date := { year := 2000, yearDay := 100, isZero := false },
    gst_registered := true, found_at_url := "", updated_at := 0 }

/-- Witness for `exportCSV_filter_sorted`: the veteran row survives an
export with an active source filter, and the output is sorted. -/
theorem exportCSV_filter_sorted_witness :
    rowVeteran ∈ ExportCSV [rowVeteran]
      { year := 2025, yearDay := 200, isZero := false } 15 ["VIC"] ["AMTIL"] ∧
    List.Sorted rowLE (ExportCSV [rowVeteran]
      { year := 2025, yearDay := 200, isZero := false } 15 ["VIC"] ["AMTIL"]) := by
  have h := exportCSV_filter_sorted [rowVeteran]
    { year := 2025, yearDay := 200, isZero := false } 15 ["VIC"] ["AMTIL"]
  exact ⟨(h.1 rowVeteran).mpr (by refine ⟨by decide, by decide, by decide,
    by decide, by decide, by decide, by decide⟩), h.2⟩
